import Mathlib

/-!
# Verification of the evo-coach core against its specification

This file gives a shallow embedding, in Lean 4, of the algorithmic core of the
evo-coach repository (a TypeScript application syncing fitness data from a
wearable platform and generating AI-authored workouts), and proves or refutes
a fixed list of claims about it.

Embedding conventions:
* JSON values (`unknown` in TypeScript) become the inductive type `Json`;
  JavaScript `undefined` is `Option.none` at use sites.
* JavaScript numbers are modelled as exact rationals `ℚ`; `Math.floor` is
  `Int.floor`, `Math.trunc` is `jsTrunc`, `Math.round` is `jsRound`.
* Fallible TypeScript code (functions that `throw`) returns `Except`.
* Byte buffers are `List Nat`; the AES-256-GCM primitive from node:crypto is
  an external library, so the encryption module is parameterised over the
  cipher and its authentication-tag function, with the standard AEAD
  correctness facts as explicit hypotheses.
* Database rows and the external client are passed explicitly as values.
-/

namespace EvoCoach

/-- JSON-like runtime values, the embedding of TypeScript `unknown`. -/
inductive Json where
  | null : Json
  | bool : Bool → Json
  | num : ℚ → Json
  | str : String → Json
  | arr : List Json → Json
  | obj : List (String × Json) → Json
  deriving Inhabited

/-- Property access `o[k]` on a JSON object: `none` models `undefined`. -/
def Json.get (fields : List (String × Json)) (k : String) : Option Json :=
  fields.lookup k

/-- JS whitespace for `String.prototype.trim`. -/
def isJsWs (c : Char) : Bool :=
  c == ' ' || c == '\t' || c == '\n' || c == '\r' ||
    c == Char.ofNat 11 || c == Char.ofNat 12

def trimLeftL (l : List Char) : List Char := l.dropWhile isJsWs

def trimRightL (l : List Char) : List Char := (l.reverse.dropWhile isJsWs).reverse

/-- `s.trim()` over a character list. -/
def jsTrimL (l : List Char) : List Char := trimLeftL (trimRightL l)

def isDigitChar (c : Char) : Bool := 48 ≤ c.toNat && c.toNat ≤ 57

def digitsToNat (ds : List Char) : Nat :=
  ds.foldl (fun a c => a * 10 + (c.toNat - 48)) 0

def parseDigits (ds : List Char) : Option Nat :=
  if ds.isEmpty then none
  else if ds.all isDigitChar then some (digitsToNat ds) else none

/-- Model of the JS `Number(string)` coercion on decimal numeric strings
(optional sign, digits, optional fractional digits); other `Number` input
forms are not exercised by the code under verification and map to `none`
(the embedding of `NaN`). -/
def parseNumQ (l : List Char) : Option ℚ :=
  let t := jsTrimL l
  let signed : ℚ × List Char :=
    match t with
    | '-' :: r => (-1, r)
    | '+' :: r => (1, r)
    | r => (1, r)
  let intPart := signed.2.takeWhile (fun c => c ≠ '.')
  match signed.2.dropWhile (fun c => c ≠ '.') with
  | [] => (parseDigits intPart).map (fun n => signed.1 * n)
  | '.' :: frac =>
    match parseDigits intPart, parseDigits frac with
    | some n, some f => some (signed.1 * ((n : ℚ) + (f : ℚ) / (10 ^ frac.length)))
    | _, _ => none
  | _ => none

/-- `asObject(value)` from `garmin-field-mapper.ts` / `sync.ts` / `garmin.ts`:
the value must be a non-null non-array object. -/
def asObject : Json → Option (List (String × Json))
  | Json.obj fields => some fields
  | _ => none

/-- `asNumber(value)`: native finite numbers, or non-blank numeric strings via
`Number(...)`; `none` is `undefined` (both as input and as result). -/
def asNumber : Option Json → Option ℚ
  | some (Json.num q) => some q
  | some (Json.str s) =>
    if jsTrimL s.data ≠ [] then parseNumQ s.data else none
  | _ => none

/-- JS `Math.trunc`: round toward zero. -/
def jsTrunc (q : ℚ) : ℤ := if 0 ≤ q then ⌊q⌋ else ⌈q⌉

/-- JS `Math.round`: floor of q + 1/2 (half rounds up). -/
def jsRound (q : ℚ) : ℤ := ⌊q + 1 / 2⌋

/-- `asInteger(value)` from `garmin-field-mapper.ts`: numeric coercion then
`Math.trunc`. -/
def asInteger (v : Option Json) : Option ℤ :=
  (asNumber v).map jsTrunc

/-- `asString(value)`: identity on strings, `undefined` otherwise. -/
def asString : Option Json → Option String
  | some (Json.str s) => some s
  | _ => none

/-! ## PaceCalculator (`src/server/vdot.ts`) -/

structure TrainingPaces where
  easyPaceLow : ℤ
  easyPaceHigh : ℤ
  tempoPace : ℤ
  thresholdPace : ℤ
  intervalPace : ℤ
  repetitionPace : ℤ
  deriving Repr, DecidableEq

/-- `calculateTrainingPaces(predicted10kSeconds)` from `src/server/vdot.ts`.
The non-finite-input guard of the source is vacuous over `ℚ`; the
non-positive guard throws, modelled as `Except.error`. -/
def calculateTrainingPaces (predicted10kSeconds : ℚ) : Except String TrainingPaces :=
  if predicted10kSeconds ≤ 0 then
    Except.error "predicted10kSeconds must be a positive number."
  else
    let base := predicted10kSeconds / 10
    Except.ok
      { easyPaceLow := ⌊base * (124 / 100)⌋
        easyPaceHigh := ⌊base * (136 / 100)⌋
        tempoPace := ⌊base * (109 / 100)⌋
        thresholdPace := ⌊base * (103 / 100)⌋
        intervalPace := ⌊base * (95 / 100)⌋
        repetitionPace := ⌊base * (89 / 100)⌋ }

/-- Floors are strictly ordered once the arguments are at least one apart. -/
theorem floor_lt_floor_of_add_one_le {a b : ℚ} (h : a + 1 ≤ b) : ⌊a⌋ < ⌊b⌋ := by
  have h1 : ⌊a⌋ + 1 ≤ ⌊a + 1⌋ := by
    rw [Int.floor_add_one]
  exact lt_of_lt_of_le (by omega) (le_trans h1 (Int.floor_le_floor h))

/-- C4 (counterexample): at the positive input `p = 100` the pace zones are
not strictly ordered — `thresholdPace = tempoPace = 10` — so the claimed
strict ordering for every positive `p` fails. -/
theorem calculateTrainingPaces_strict_order_fails :
    calculateTrainingPaces 100 =
      Except.ok
        { easyPaceLow := 12, easyPaceHigh := 13, tempoPace := 10
          thresholdPace := 10, intervalPace := 9, repetitionPace := 8 } ∧
      ¬ ((8 : ℤ) < 9 ∧ (9 : ℤ) < 10 ∧ (10 : ℤ) < 10 ∧ (10 : ℤ) < 12 ∧ (12 : ℤ) < 13) := by
  constructor
  · simp only [calculateTrainingPaces]
    norm_num [TrainingPaces.mk.injEq, Int.floor_eq_iff]
  · decide

/-- C4 (amended): for every positive `p`, `calculateTrainingPaces p` succeeds
and returns the six floor-rounded zone paces, non-strictly ordered
`repetition ≤ interval ≤ threshold ≤ tempo ≤ easyLow ≤ easyHigh`; the
ordering is strict whenever `p ≥ 170` (any realistic 10K prediction). -/
theorem calculateTrainingPaces_zones_ordered (p : ℚ) (hp : 0 < p) :
    ∃ t, calculateTrainingPaces p = Except.ok t ∧
      t.easyPaceLow = ⌊p / 10 * (124 / 100)⌋ ∧
      t.easyPaceHigh = ⌊p / 10 * (136 / 100)⌋ ∧
      t.tempoPace = ⌊p / 10 * (109 / 100)⌋ ∧
      t.thresholdPace = ⌊p / 10 * (103 / 100)⌋ ∧
      t.intervalPace = ⌊p / 10 * (95 / 100)⌋ ∧
      t.repetitionPace = ⌊p / 10 * (89 / 100)⌋ ∧
      t.repetitionPace ≤ t.intervalPace ∧
      t.intervalPace ≤ t.thresholdPace ∧
      t.thresholdPace ≤ t.tempoPace ∧
      t.tempoPace ≤ t.easyPaceLow ∧
      t.easyPaceLow ≤ t.easyPaceHigh ∧
      (170 ≤ p →
        t.repetitionPace < t.intervalPace ∧
        t.intervalPace < t.thresholdPace ∧
        t.thresholdPace < t.tempoPace ∧
        t.tempoPace < t.easyPaceLow ∧
        t.easyPaceLow < t.easyPaceHigh) := by
  have hnp : ¬ p ≤ 0 := not_le.mpr hp
  have hb : (0 : ℚ) ≤ p / 10 := by positivity
  refine
    ⟨⟨⌊p / 10 * (124 / 100)⌋, ⌊p / 10 * (136 / 100)⌋, ⌊p / 10 * (109 / 100)⌋,
        ⌊p / 10 * (103 / 100)⌋, ⌊p / 10 * (95 / 100)⌋, ⌊p / 10 * (89 / 100)⌋⟩,
      by simp [calculateTrainingPaces, hnp], rfl, rfl, rfl, rfl, rfl, rfl, ?_⟩
  refine ⟨?_, ?_, ?_, ?_, ?_, ?_⟩ <;> try
    exact Int.floor_le_floor (mul_le_mul_of_nonneg_left (by norm_num) hb)
  intro h170
  refine ⟨?_, ?_, ?_, ?_, ?_⟩ <;>
    exact floor_lt_floor_of_add_one_le (by linarith)

/-- Witness for `calculateTrainingPaces_zones_ordered` at the spec's own
example input `p = 2400`. -/
theorem calculateTrainingPaces_zones_ordered_witness :
    ∃ t, calculateTrainingPaces 2400 = Except.ok t ∧
      t.easyPaceLow = ⌊(2400 : ℚ) / 10 * (124 / 100)⌋ ∧
      t.easyPaceHigh = ⌊(2400 : ℚ) / 10 * (136 / 100)⌋ ∧
      t.tempoPace = ⌊(2400 : ℚ) / 10 * (109 / 100)⌋ ∧
      t.thresholdPace = ⌊(2400 : ℚ) / 10 * (103 / 100)⌋ ∧
      t.intervalPace = ⌊(2400 : ℚ) / 10 * (95 / 100)⌋ ∧
      t.repetitionPace = ⌊(2400 : ℚ) / 10 * (89 / 100)⌋ ∧
      t.repetitionPace ≤ t.intervalPace ∧
      t.intervalPace ≤ t.thresholdPace ∧
      t.thresholdPace ≤ t.tempoPace ∧
      t.tempoPace ≤ t.easyPaceLow ∧
      t.easyPaceLow ≤ t.easyPaceHigh ∧
      ((170 : ℚ) ≤ 2400 →
        t.repetitionPace < t.intervalPace ∧
        t.intervalPace < t.thresholdPace ∧
        t.thresholdPace < t.tempoPace ∧
        t.tempoPace < t.easyPaceLow ∧
        t.easyPaceLow < t.easyPaceHigh) :=
  calculateTrainingPaces_zones_ordered 2400 (by norm_num)

/-! ## CredentialVault (`src/server/encryption.ts`)

The AES-256-GCM primitive comes from `node:crypto`, an external library; the
embedding is parameterised over the cipher body `gcmEncrypt`/`gcmDecrypt` and
the authentication-tag function `gcmTag`, with the AEAD facts the library
guarantees (tag width 16, decryption inverts encryption) as hypotheses. -/

def IV_LENGTH : Nat := 12
def AUTH_TAG_LENGTH : Nat := 16
def HEADER_LENGTH : Nat := IV_LENGTH + AUTH_TAG_LENGTH

/-- `encryptTokenPayload(plaintext)`: the random 12-byte nonce draw is made
an explicit argument `iv`; output is `iv || authTag || ciphertext`. -/
def encryptTokenPayload (gcmEncrypt gcmTag : List Nat → List Nat → List Nat → List Nat)
    (key iv plaintext : List Nat) : List Nat :=
  let ciphertext := gcmEncrypt key iv plaintext
  let authTag := gcmTag key iv ciphertext
  iv ++ authTag ++ ciphertext

/-- `decryptTokenPayload(payload)`: header-length check, split into
nonce/tag/ciphertext, and GCM tag verification (`decipher.final()` throws on
mismatch, modelled as the error branch). -/
def decryptTokenPayload (gcmDecrypt gcmTag : List Nat → List Nat → List Nat → List Nat)
    (key payload : List Nat) : Except String (List Nat) :=
  if payload.length < HEADER_LENGTH then
    Except.error "Encrypted token payload is invalid."
  else
    let iv := payload.take IV_LENGTH
    let authTag := (payload.drop IV_LENGTH).take AUTH_TAG_LENGTH
    let ciphertext := payload.drop HEADER_LENGTH
    if gcmTag key iv ciphertext = authTag then
      Except.ok (gcmDecrypt key iv ciphertext)
    else
      Except.error "Unsupported state or unable to authenticate data."

/-- Flip bit `kbit` of the byte at index `pos` of a buffer. -/
def flipBitAt (l : List Nat) (pos kbit : Nat) : List Nat :=
  l.set pos (l.getD pos 0 ^^^ 2 ^ kbit)

theorem xor_pow_two_ne_self (a kbit : Nat) : a ^^^ 2 ^ kbit ≠ a := by
  intro h
  have h3 : a ^^^ (a ^^^ 2 ^ kbit) = a ^^^ a := by rw [h]
  rw [← Nat.xor_assoc, Nat.xor_self, Nat.zero_xor] at h3
  exact (pow_pos (by norm_num : (0 : ℕ) < 2) kbit).ne' h3

/-- C5: with the AEAD facts for AES-256-GCM as hypotheses — a 12-byte nonce,
16-byte tags, and decryption inverting encryption — the vault satisfies:
the blob is `nonce || tag || ciphertext`; `decrypt (encrypt x) = x`;
flipping any single bit inside the tag region makes decryption fail; and any
blob shorter than the 28-byte header makes decryption fail. -/
theorem encryption_roundtrip_layout_and_tamper
    (gcmEncrypt gcmDecrypt gcmTag : List Nat → List Nat → List Nat → List Nat)
    (key iv x : List Nat)
    (hiv : iv.length = IV_LENGTH)
    (htag : ∀ k i c, (gcmTag k i c).length = AUTH_TAG_LENGTH)
    (hdec : ∀ k i m, gcmDecrypt k i (gcmEncrypt k i m) = m)
    (pos kbit : Nat) (hpos1 : IV_LENGTH ≤ pos) (hpos2 : pos < HEADER_LENGTH)
    (shortBlob : List Nat) (hshort : shortBlob.length < HEADER_LENGTH) :
    encryptTokenPayload gcmEncrypt gcmTag key iv x =
      iv ++ gcmTag key iv (gcmEncrypt key iv x) ++ gcmEncrypt key iv x ∧
    decryptTokenPayload gcmDecrypt gcmTag key
        (encryptTokenPayload gcmEncrypt gcmTag key iv x) = Except.ok x ∧
    decryptTokenPayload gcmDecrypt gcmTag key
        (flipBitAt (encryptTokenPayload gcmEncrypt gcmTag key iv x) pos kbit) =
      Except.error "Unsupported state or unable to authenticate data." ∧
    decryptTokenPayload gcmDecrypt gcmTag key shortBlob =
      Except.error "Encrypted token payload is invalid." := by
  set c := gcmEncrypt key iv x with hc
  set tag := gcmTag key iv c with htagdef
  have htlen : tag.length = AUTH_TAG_LENGTH := htag key iv c
  have hIVn : IV_LENGTH = 12 := rfl
  have hATn : AUTH_TAG_LENGTH = 16 := rfl
  have hHLn : HEADER_LENGTH = 28 := rfl
  have hlayout : encryptTokenPayload gcmEncrypt gcmTag key iv x = iv ++ tag ++ c := rfl
  have hassoc : iv ++ tag ++ c = iv ++ (tag ++ c) := List.append_assoc iv tag c
  have hplen : (iv ++ (tag ++ c)).length = HEADER_LENGTH + c.length := by
    simp [hiv, htlen, IV_LENGTH, AUTH_TAG_LENGTH, HEADER_LENGTH]
    omega
  have htake : (iv ++ (tag ++ c)).take IV_LENGTH = iv := List.take_left' hiv
  have hdrop : (iv ++ (tag ++ c)).drop IV_LENGTH = tag ++ c := List.drop_left' hiv
  have hdrop28 : ∀ t' : List Nat, t'.length = AUTH_TAG_LENGTH →
      (iv ++ (t' ++ c)).drop HEADER_LENGTH = c := by
    intro t' ht'
    have h1 : HEADER_LENGTH = iv.length + AUTH_TAG_LENGTH := by rw [hiv]; rfl
    rw [h1, List.drop_append, List.drop_left' ht']
  refine ⟨hlayout, ?_, ?_, ?_⟩
  · -- round trip
    rw [hlayout, hassoc, decryptTokenPayload]
    rw [if_neg (by rw [hplen]; omega)]
    rw [htake, hdrop, List.take_left' htlen, hdrop28 tag htlen, if_pos rfl, hdec]
  · -- tag-region bit flip
    have hplen' : pos < (iv ++ (tag ++ c)).length := by rw [hplen]; omega
    have hset : flipBitAt (encryptTokenPayload gcmEncrypt gcmTag key iv x) pos kbit =
        iv ++ (tag.set (pos - IV_LENGTH) (tag.getD (pos - IV_LENGTH) 0 ^^^ 2 ^ kbit) ++ c) := by
      rw [hlayout, hassoc, flipBitAt]
      have hged : (iv ++ (tag ++ c)).getD pos 0 = tag.getD (pos - IV_LENGTH) 0 := by
        rw [List.getD_append_right _ _ _ _ (by rw [hiv]; exact hpos1), hiv]
        exact List.getD_append tag c 0 (pos - IV_LENGTH) (by omega)
      rw [hged, List.set_append, if_neg (by rw [hiv]; omega), List.set_append,
        if_pos (by rw [htlen]; omega), hiv]
    set j := pos - IV_LENGTH with hj
    have hjlt : j < AUTH_TAG_LENGTH := by omega
    set tag' := tag.set j (tag.getD j 0 ^^^ 2 ^ kbit) with htag'
    have ht'len : tag'.length = AUTH_TAG_LENGTH := by
      rw [htag', List.length_set, htlen]
    have hne : tag ≠ tag' := by
      intro h
      have hjt : j < tag.length := by omega
      have hval : tag'.getD j 0 = tag.getD j 0 ^^^ 2 ^ kbit := by
        rw [htag']
        rw [List.getD_eq_getElem _ _ (by rw [List.length_set]; omega)]
        simp [List.getElem_set, List.getD_eq_getElem tag 0 hjt]
      rw [← h] at hval
      exact xor_pow_two_ne_self (tag.getD j 0) kbit hval.symm
    rw [hset, decryptTokenPayload]
    rw [if_neg (by
      have : (iv ++ (tag' ++ c)).length = HEADER_LENGTH + c.length := by
        simp [hiv, ht'len, IV_LENGTH, AUTH_TAG_LENGTH, HEADER_LENGTH]
        omega
      rw [this]; omega)]
    rw [List.take_left' hiv, List.drop_left' hiv, List.take_left' ht'len,
      hdrop28 tag' ht'len]
    rw [if_neg (by rw [← htagdef]; exact hne)]
  · -- short blob
    rw [decryptTokenPayload, if_pos hshort]

/-- Witness for `encryption_roundtrip_layout_and_tamper` at a toy AEAD
instance (identity cipher body, checksum tag) and concrete buffers. -/
theorem encryption_roundtrip_layout_and_tamper_witness :
    encryptTokenPayload (fun _ _ m => m)
        (fun k i c => List.replicate 16 ((k.sum + i.sum + c.sum) % 256))
        [7] (List.replicate 12 0) [1, 2, 3] =
      List.replicate 12 0 ++
        List.replicate 16 (([7].sum + (List.replicate 12 0).sum + [1, 2, 3].sum) % 256) ++
        [1, 2, 3] ∧
    decryptTokenPayload (fun _ _ c => c)
        (fun k i c => List.replicate 16 ((k.sum + i.sum + c.sum) % 256)) [7]
        (encryptTokenPayload (fun _ _ m => m)
          (fun k i c => List.replicate 16 ((k.sum + i.sum + c.sum) % 256))
          [7] (List.replicate 12 0) [1, 2, 3]) = Except.ok [1, 2, 3] ∧
    decryptTokenPayload (fun _ _ c => c)
        (fun k i c => List.replicate 16 ((k.sum + i.sum + c.sum) % 256)) [7]
        (flipBitAt
          (encryptTokenPayload (fun _ _ m => m)
            (fun k i c => List.replicate 16 ((k.sum + i.sum + c.sum) % 256))
            [7] (List.replicate 12 0) [1, 2, 3]) 12 0) =
      Except.error "Unsupported state or unable to authenticate data." ∧
    decryptTokenPayload (fun _ _ c => c)
        (fun k i c => List.replicate 16 ((k.sum + i.sum + c.sum) % 256)) [7] [] =
      Except.error "Encrypted token payload is invalid." :=
  encryption_roundtrip_layout_and_tamper
    (fun _ _ m => m) (fun _ _ c => c)
    (fun k i c => List.replicate 16 ((k.sum + i.sum + c.sum) % 256))
    [7] (List.replicate 12 0) [1, 2, 3]
    (by simp [IV_LENGTH])
    (fun _ _ _ => by simp [AUTH_TAG_LENGTH])
    (fun _ _ _ => rfl)
    12 0 (by norm_num [IV_LENGTH]) (by norm_num [HEADER_LENGTH, IV_LENGTH, AUTH_TAG_LENGTH])
    [] (by norm_num [HEADER_LENGTH, IV_LENGTH, AUTH_TAG_LENGTH])

/-! ## WorkoutGenerationPipeline response handling (`src/server/ai.ts`) -/

/-- The backtick character (used for markdown code fences). -/
def backtick : Char := Char.ofNat 96

/-- The three-backtick fence marker. -/
def fence : List Char := [backtick, backtick, backtick]

def jsStartsWith (l pre : List Char) : Bool := pre.isPrefixOf l

def jsEndsWith (l suf : List Char) : Bool := suf.isSuffixOf l

/-- `s.indexOf("\n")`, as an option instead of `-1`. -/
def firstIdxOf (c : Char) : List Char → Option Nat
  | [] => none
  | x :: xs => if x = c then some 0 else (firstIdxOf c xs).map (· + 1)

/-- `s.slice(0, -n)`: drop the last `n` characters. -/
def dropRightL (l : List Char) (n : Nat) : List Char := (l.reverse.drop n).reverse

/-- `stripMarkdownCodeBlock(raw)` from `src/server/ai.ts`. -/
def stripMarkdownCodeBlock (raw : List Char) : List Char :=
  let trimmed := jsTrimL raw
  if !jsStartsWith trimmed fence then trimmed
  else
    match firstIdxOf '\n' trimmed with
    | none => trimmed
    | some firstNewline =>
      let withoutOpeningFence := trimmed.drop (firstNewline + 1)
      let withoutClosing :=
        if jsEndsWith withoutOpeningFence fence then dropRightL withoutOpeningFence 3
        else withoutOpeningFence
      jsTrimL withoutClosing

/-- `validateWorkoutStructure(value)` from `src/server/ai.ts`. -/
def validateWorkoutStructure (value : Json) : Bool :=
  match asObject value with
  | none => false
  | some fields =>
    (match Json.get fields "workoutName" with
     | some (Json.str s) => !(jsTrimL s.data).isEmpty
     | _ => false) &&
    (match Json.get fields "sportType" with
     | some v => (asObject v).isSome
     | _ => false) &&
    (match Json.get fields "workoutSegments" with
     | some (Json.arr (seg0 :: _)) =>
       (match asObject seg0 with
        | some segFields =>
          (match Json.get segFields "workoutSteps" with
           | some (Json.arr (_ :: _)) => true
           | _ => false)
        | none => false)
     | _ => false)

structure WorkoutGenerationResult where
  workout : Json
  explanation : Option String

/-- `parseWorkoutResponse(raw)` from `src/server/ai.ts`, parameterised over
the external `JSON.parse` (`none` models a parse exception). -/
def parseWorkoutResponse (jsonParse : List Char → Option Json) (raw : List Char) :
    Except String WorkoutGenerationResult :=
  let normalized := stripMarkdownCodeBlock raw
  match jsonParse normalized with
  | none => Except.error "Failed to parse workout JSON from AI response."
  | some parsed =>
    let candidate : Json × Option String :=
      match asObject parsed with
      | some fields =>
        if (Json.get fields "workout").isSome then
          ((Json.get fields "workout").getD Json.null,
            match Json.get fields "explanation" with
            | some (Json.str e) =>
              if (jsTrimL e.data).isEmpty then none else some (String.mk (jsTrimL e.data))
            | _ => none)
        else (parsed, none)
      | none => (parsed, none)
    if validateWorkoutStructure candidate.1 then
      Except.ok { workout := candidate.1, explanation := candidate.2 }
    else
      Except.error "Workout is missing required Garmin fields."

/-- Wrapping a text in a markdown code fence: ```json, newline, the text,
newline, closing ```. -/
def wrapJsonFence (j : List Char) : List Char :=
  backtick :: backtick :: backtick :: 'j' :: 's' :: 'o' :: 'n' :: '\n' ::
    (j ++ ['\n', backtick, backtick, backtick])

theorem trimRightL_append_newline (l : List Char) :
    trimRightL (l ++ ['\n']) = trimRightL l := by
  simp [trimRightL, List.reverse_append, List.dropWhile_cons, isJsWs]

theorem jsTrimL_append_newline (l : List Char) :
    jsTrimL (l ++ ['\n']) = jsTrimL l := by
  simp [jsTrimL, trimRightL_append_newline]

theorem trimLeftL_cons_not_ws {c : Char} (l : List Char) (h : isJsWs c = false) :
    trimLeftL (c :: l) = c :: l := by
  simp [trimLeftL, List.dropWhile_cons, h]

theorem trimRightL_append_not_ws {c : Char} (l : List Char) (h : isJsWs c = false) :
    trimRightL (l ++ [c]) = l ++ [c] := by
  simp [trimRightL, List.reverse_append, List.dropWhile_cons, h]

theorem jsTrimL_wrapJsonFence (j : List Char) : jsTrimL (wrapJsonFence j) = wrapJsonFence j := by
  have hb : isJsWs backtick = false := by decide
  have hsplit : wrapJsonFence j =
      (backtick :: backtick :: backtick :: 'j' :: 's' :: 'o' :: 'n' :: '\n' ::
        (j ++ ['\n', backtick, backtick])) ++ [backtick] := by
    simp [wrapJsonFence]
  rw [jsTrimL, hsplit, trimRightL_append_not_ws _ hb]
  rw [show (backtick :: backtick :: backtick :: 'j' :: 's' :: 'o' :: 'n' :: '\n' ::
      (j ++ ['\n', backtick, backtick])) ++ [backtick] =
      backtick :: ((backtick :: backtick :: 'j' :: 's' :: 'o' :: 'n' :: '\n' ::
        (j ++ ['\n', backtick, backtick])) ++ [backtick]) from by simp]
  rw [trimLeftL_cons_not_ws _ hb]

theorem firstIdxOf_wrapJsonFence (j : List Char) :
    firstIdxOf '\n' (wrapJsonFence j) = some 7 := by
  have hb : (backtick = '\n') = False := by decide
  simp [wrapJsonFence, firstIdxOf, hb]

/-- C8: a workout response consisting of a text `j` wrapped in a
leading/trailing ```json fence parses to exactly the same result as the
unwrapped `j`, for any behaviour of the external JSON parser, provided `j`
itself does not open with a code fence (true of every JSON text). -/
theorem parseWorkoutResponse_fence_irrelevant
    (jsonParse : List Char → Option Json) (j : List Char)
    (hj : jsStartsWith (jsTrimL j) fence = false) :
    parseWorkoutResponse jsonParse (wrapJsonFence j) = parseWorkoutResponse jsonParse j := by
  have hstrip_wrap : stripMarkdownCodeBlock (wrapJsonFence j) = jsTrimL j := by
    rw [stripMarkdownCodeBlock]
    simp only [jsTrimL_wrapJsonFence]
    rw [if_neg (by simp [jsStartsWith, wrapJsonFence, fence, List.isPrefixOf])]
    rw [firstIdxOf_wrapJsonFence]
    simp only [wrapJsonFence, List.drop_succ_cons, List.drop_zero]
    rw [if_pos (by
      show jsEndsWith (j ++ ['\n', backtick, backtick, backtick]) fence = true
      simp [jsEndsWith, fence, List.isSuffixOf, List.reverse_append, List.isPrefixOf])]
    rw [show dropRightL (j ++ ['\n', backtick, backtick, backtick]) 3 = j ++ ['\n'] from by
      simp [dropRightL, List.reverse_append]]
    exact jsTrimL_append_newline j
  have hstrip_plain : stripMarkdownCodeBlock j = jsTrimL j := by
    rw [stripMarkdownCodeBlock, if_pos (by simp [hj])]
  rw [parseWorkoutResponse, parseWorkoutResponse, hstrip_wrap, hstrip_plain]

/-- Witness for `parseWorkoutResponse_fence_irrelevant` at the concrete text
`"42"` and the trivial parser. -/
theorem parseWorkoutResponse_fence_irrelevant_witness :
    parseWorkoutResponse (fun _ => none) (wrapJsonFence ['4', '2']) =
      parseWorkoutResponse (fun _ => none) ['4', '2'] :=
  parseWorkoutResponse_fence_irrelevant (fun _ => none) ['4', '2'] (by decide)

/-! ## FieldMapper (`src/server/garmin-field-mapper.ts`) -/

/-- ASCII lowering; the inputs exercised here are ASCII type keys, so this
models `String.prototype.toLowerCase`. -/
def jsToLowerChar (c : Char) : Char :=
  if 'A' ≤ c ∧ c ≤ 'Z' then Char.ofNat (c.toNat + 32) else c

def jsToLower (s : String) : String := String.mk (s.data.map jsToLowerChar)

/-- `a.includes(b)`: substring containment. -/
def containsSub (sub : List Char) : List Char → Bool
  | [] => sub.isEmpty
  | x :: xs => sub.isPrefixOf (x :: xs) || containsSub sub xs

/-- `typeKey.toLowerCase().includes("running")`. -/
def includesRunning (s : String) : Bool :=
  containsSub "running".data (jsToLower s).data

/-- The `typeKey` extraction shared by `mapRunningVolume` (and
`isRunningActivity` in `sync.ts`): a nested `activityType.typeKey` string,
else a bare `activityType` string. -/
def activityTypeKey (activityObject : List (String × Json)) : Option String :=
  (((Json.get activityObject "activityType").bind asObject).bind
      (fun o => asString (Json.get o "typeKey"))).or
    (asString (Json.get activityObject "activityType"))

/-- The canonical daily-health record produced by `mapDailyHealthReadings`
(a `Partial<...>`: every metric is optional; the source never sets the
body-battery fields, so they are omitted here). Dates are canonical day
numbers (valid `YYYY-MM-DD` strings are in bijection with them, and
`asDateOnly` is total and injective on them). -/
structure DailyHealthMapped where
  readingDate : Nat
  sleepScore : Option ℤ := none
  totalSleepSeconds : Option ℤ := none
  sleepStress : Option ℤ := none
  sleepScoreGarminFeedback : Option String := none
  avgOvernightHrv : Option ℚ := none
  hrvStatus : Option String := none
  hrv7dayAvg : Option ℚ := none
  restingHr : Option ℤ := none
  restingHr7dayAvg : Option ℤ := none
  deriving Repr, DecidableEq

structure DailyHealthInput where
  sleep : Option Json := none
  hrv : Option Json := none
  restingHeartRate : Option Json := none
  date : Nat

/-- The `if (sleep) { ... }` block of `mapDailyHealthReadings`. -/
def applySleepBlock (sleepRaw : Option Json) (mapped : DailyHealthMapped) : DailyHealthMapped :=
  match sleepRaw.bind asObject with
  | none => mapped
  | some sleep =>
    let mapped :=
      match asNumber (Json.get sleep "avgOvernightHrv") with
      | some q => { mapped with avgOvernightHrv := some q }
      | none => mapped
    let mapped :=
      match asString (Json.get sleep "hrvStatus") with
      | some s => { mapped with hrvStatus := some s }
      | none => mapped
    let mapped :=
      match asInteger (Json.get sleep "restingHeartRate") with
      | some v => { mapped with restingHr := some v }
      | none => mapped
    match (Json.get sleep "dailySleepDTO").bind asObject with
    | none => mapped
    | some dailySleep =>
      let sleepScores := (Json.get dailySleep "sleepScores").bind asObject
      let overallScore :=
        match sleepScores with
        | some ss => (Json.get ss "overall").bind asObject
        | none => none
      let scoreFromNewSchema :=
        match overallScore with
        | some o => asInteger (Json.get o "value")
        | none => none
      let mapped :=
        match scoreFromNewSchema with
        | some s => { mapped with sleepScore := some s }
        | none =>
          match (Json.get dailySleep "overallSleepScore").bind asObject with
          | some old =>
            match asInteger (Json.get old "value") with
            | some s => { mapped with sleepScore := some s }
            | none => mapped
          | none => mapped
      let mapped :=
        match asInteger (Json.get dailySleep "sleepTimeSeconds") with
        | some v => { mapped with totalSleepSeconds := some v }
        | none => mapped
      let mapped :=
        match asInteger (Json.get dailySleep "sleepStress") with
        | some v => { mapped with sleepStress := some v }
        | none => mapped
      match asString (Json.get dailySleep "sleepScoreGarminFeedback") with
      | some s => { mapped with sleepScoreGarminFeedback := some s }
      | none => mapped

/-- The `if (hrv) { ... }` block of `mapDailyHealthReadings`. -/
def applyHrvBlock (hrvRaw : Option Json) (mapped : DailyHealthMapped) : DailyHealthMapped :=
  match hrvRaw.bind asObject with
  | none => mapped
  | some hrv =>
    let summary := (Json.get hrv "hrvSummary").bind asObject
    match (match summary with
           | some s => asNumber (Json.get s "weeklyAvg")
           | none => none) with
    | some w => { mapped with hrv7dayAvg := some w }
    | none => mapped

/-- The `if (restingHeartRate) { ... }` block of `mapDailyHealthReadings`:
the sub-record's own `restingHeartRate` is used only when `mapped.restingHr`
is still undefined. -/
def applyRhrBlock (rhrRaw : Option Json) (mapped : DailyHealthMapped) : DailyHealthMapped :=
  match rhrRaw.bind asObject with
  | none => mapped
  | some rhr =>
    let mapped :=
      match asInteger (Json.get rhr "lastSevenDaysAvgRestingHeartRate") with
      | some v => { mapped with restingHr7dayAvg := some v }
      | none => mapped
    match mapped.restingHr with
    | some _ => mapped
    | none =>
      match asInteger (Json.get rhr "restingHeartRate") with
      | some v => { mapped with restingHr := some v }
      | none => mapped

/-- `mapDailyHealthReadings(input)` from `src/server/garmin-field-mapper.ts`:
the three source blocks applied in order to the base record. -/
def mapDailyHealthReadings (input : DailyHealthInput) : DailyHealthMapped :=
  applyRhrBlock input.restingHeartRate
    (applyHrvBlock input.hrv
      (applySleepBlock input.sleep { readingDate := input.date }))

/-- `Object.keys(mapped).some((key) => key !== "readingDate")` from
`syncDailyHealthData`. -/
def hasMetrics (m : DailyHealthMapped) : Bool :=
  m.sleepScore.isSome || m.totalSleepSeconds.isSome || m.sleepStress.isSome ||
    m.sleepScoreGarminFeedback.isSome || m.avgOvernightHrv.isSome ||
    m.hrvStatus.isSome || m.hrv7dayAvg.isSome || m.restingHr.isSome ||
    m.restingHr7dayAvg.isSome

/-- `mapRacePredictions(raw)`: the `RACE_PREDICTION_MAP` table applied to a
raw predictions object; each hit is integer-coerced. -/
structure RacePredictionsMapped where
  predicted5kSeconds : Option ℤ := none
  predicted10kSeconds : Option ℤ := none
  predictedHalfSeconds : Option ℤ := none
  predictedMarathonSeconds : Option ℤ := none
  deriving Repr, DecidableEq

def mapRacePredictions (raw : Json) : RacePredictionsMapped :=
  match asObject raw with
  | none => {}
  | some source =>
    { predicted5kSeconds := asInteger (Json.get source "time5K")
      predicted10kSeconds := asInteger (Json.get source "time10K")
      predictedHalfSeconds := asInteger (Json.get source "timeHalfMarathon")
      predictedMarathonSeconds := asInteger (Json.get source "timeMarathon") }

structure RunningVolumeMetrics where
  weeklyVolumeAvgKm : Option ℚ := none
  longestRunKm : Option ℚ := none
  runningDistanceAvgKm : Option ℚ := none
  deriving Repr, DecidableEq

/-- `Number(x.toFixed(2))`: round to two decimals (ties away from zero on
the positive values that occur here). -/
def round2 (q : ℚ) : ℚ := (jsRound (q * 100) : ℚ) / 100

/-- One iteration of the collection loop of `mapRunningVolume`: push the
distance when the activity is an object, running-typed, and has a positive
numeric `distance`. -/
def collectStep (acc : List ℚ) (activity : Json) : List ℚ :=
  match asObject activity with
  | none => acc
  | some o =>
    match activityTypeKey o with
    | none => acc
    | some tk =>
      if !includesRunning tk then acc
      else
        match asNumber (Json.get o "distance") with
        | some d => if 0 < d then acc ++ [d] else acc
        | none => acc

/-- The collection loop of `mapRunningVolume`: running-typed activities with
a positive numeric `distance`, in order. -/
def collectDistances (rawActivities : List Json) : List ℚ :=
  rawActivities.foldl collectStep []

/-- The per-activity filter of `mapRunningVolume`, stated directly: the
distance of an activity that counts toward running volume. -/
def runningDistanceOf (activity : Json) : Option ℚ :=
  match asObject activity with
  | none => none
  | some o =>
    match activityTypeKey o with
    | none => none
    | some tk =>
      if includesRunning tk then
        match asNumber (Json.get o "distance") with
        | some d => if 0 < d then some d else none
        | none => none
      else none

/-- `mapRunningVolume(rawActivities)` from
`src/server/garmin-field-mapper.ts`. (The source guards each field on
`sumMeters`/`maxMeters`/`avgMeters` being defined, which is always the case
once the list is non-empty.) -/
def mapRunningVolume (rawActivities : List Json) : RunningVolumeMetrics :=
  match collectDistances rawActivities with
  | [] => {}
  | d :: ds =>
    let sumMeters := (d :: ds).sum
    let maxMeters := ds.foldl max d
    let avgMeters := sumMeters / (d :: ds).length
    { weeklyVolumeAvgKm := some (round2 (sumMeters / 4 / 1000))
      longestRunKm := some (round2 (maxMeters / 1000))
      runningDistanceAvgKm := some (round2 (avgMeters / 1000)) }

/-- The resting heart rate supplied by the sleep sub-record. -/
def sleepDerivedRestingHr (input : DailyHealthInput) : Option ℤ :=
  (input.sleep.bind asObject).bind
    (fun s => asInteger (Json.get s "restingHeartRate"))

/-- The resting heart rate supplied by the resting-heart-rate sub-record. -/
def fallbackDerivedRestingHr (input : DailyHealthInput) : Option ℤ :=
  (input.restingHeartRate.bind asObject).bind
    (fun r => asInteger (Json.get r "restingHeartRate"))

theorem applySleepBlock_restingHr (s : Option Json) (m : DailyHealthMapped) :
    (applySleepBlock s m).restingHr =
      ((s.bind asObject).bind
        (fun o => asInteger (Json.get o "restingHeartRate"))).or m.restingHr := by
  unfold applySleepBlock
  rcases hs : s.bind asObject with _ | sleep
  · simp
  · simp only [Option.bind_some]
    repeat' split
    all_goals simp_all [Option.or]

theorem applyHrvBlock_restingHr (h : Option Json) (m : DailyHealthMapped) :
    (applyHrvBlock h m).restingHr = m.restingHr := by
  unfold applyHrvBlock
  rcases hh : h.bind asObject with _ | hrv <;> simp only [hh]
  all_goals split <;> rfl

theorem applyRhrBlock_restingHr (r : Option Json) (m : DailyHealthMapped) :
    (applyRhrBlock r m).restingHr =
      m.restingHr.or
        ((r.bind asObject).bind
          (fun o => asInteger (Json.get o "restingHeartRate"))) := by
  unfold applyRhrBlock
  rcases hr : r.bind asObject with _ | rhr
  · simp [Option.or_none]
  · simp only [Option.bind_some]
    repeat' split
    all_goals simp_all [Option.or]

/-- C10: in the daily-health merge, the sleep-derived resting heart rate
takes precedence — the merged `restingHr` is the sleep sub-record's value
when present, and the resting-heart-rate sub-record's own value only
otherwise. -/
theorem mapDailyHealthReadings_restingHr_precedence (input : DailyHealthInput) :
    (mapDailyHealthReadings input).restingHr =
      (sleepDerivedRestingHr input).or (fallbackDerivedRestingHr input) := by
  unfold mapDailyHealthReadings sleepDerivedRestingHr fallbackDerivedRestingHr
  rw [applyRhrBlock_restingHr, applyHrvBlock_restingHr, applySleepBlock_restingHr]
  simp

theorem runningDistanceOf_pos (a : Json) (d : ℚ)
    (h : runningDistanceOf a = some d) : 0 < d := by
  unfold runningDistanceOf at h
  repeat' split at h
  all_goals simp_all

theorem collectStep_eq (acc : List ℚ) (a : Json) :
    collectStep acc a = acc ++ (runningDistanceOf a).toList := by
  unfold collectStep runningDistanceOf
  repeat' split
  all_goals simp_all

theorem collectDistances_eq_filterMap (acts : List Json) :
    collectDistances acts = acts.filterMap runningDistanceOf := by
  unfold collectDistances
  suffices h : ∀ acc, List.foldl collectStep acc acts =
      acc ++ acts.filterMap runningDistanceOf by
    simpa using h []
  induction acts with
  | nil => intro acc; simp
  | cons a l ih =>
    intro acc
    rw [List.foldl_cons, List.filterMap_cons, collectStep_eq, ih]
    cases hr : runningDistanceOf a <;> simp [hr]

theorem foldl_max_of_nonneg {d : ℚ} (ds : List ℚ) (h : 0 ≤ d) :
    List.foldl max 0 (d :: ds) = List.foldl max d ds := by
  rw [List.foldl_cons, max_eq_right h]

/-- C9: running-volume aggregation keeps exactly the running-typed
activities with positive distance; the weekly average is the sum of those
distances over the window divided by 4 (then meters→km) — not divided by the
run count — while the longest-run and per-run-average fields are the max and
the mean of the same distances in km. -/
theorem mapRunningVolume_spec (acts : List Json) :
    mapRunningVolume acts =
      (if (acts.filterMap runningDistanceOf).isEmpty then {}
       else
         { weeklyVolumeAvgKm :=
             some (round2 ((acts.filterMap runningDistanceOf).sum / 4 / 1000))
           longestRunKm :=
             some (round2 ((acts.filterMap runningDistanceOf).foldl max 0 / 1000))
           runningDistanceAvgKm :=
             some (round2 ((acts.filterMap runningDistanceOf).sum /
               (acts.filterMap runningDistanceOf).length / 1000)) }) := by
  unfold mapRunningVolume
  rw [collectDistances_eq_filterMap]
  rcases hds : acts.filterMap runningDistanceOf with _ | ⟨d, ds⟩
  · simp
  · have hd : 0 < d := by
      have hmem : d ∈ acts.filterMap runningDistanceOf := by rw [hds]; simp
      obtain ⟨a, _, ha⟩ := List.mem_filterMap.mp hmem
      exact runningDistanceOf_pos a d ha
    rw [foldl_max_of_nonneg ds hd.le]
    simp

/-! ## SyncOrchestrator: daily health sync (`src/server/sync.ts`)

Calendar dates are modelled as day numbers `Nat` (canonical `YYYY-MM-DD`
strings are in bijection with them, and `formatDate ∘ addDays` round-trips,
so the source's string comparison `currentDate === endDate` is day-number
equality). The database is the initial membership test `existing` plus the
list of days upserted so far in this run; the external client is the
function `fetch` giving each day's three raw sub-records (sleep, HRV,
resting HR), fetched together for a day. -/

structure HealthSyncTrace where
  fetched : List Nat
  upserted : List Nat
  synced : Nat
  deriving Repr, DecidableEq

/-- The day loop of `syncDailyHealthData`: for each day, unless it is the
final day, skip it entirely when a reading already exists; otherwise fetch
the three sub-records, merge them, and upsert unless the merge produced no
metric at all. -/
def syncDailyHealthDays (fetch : Nat → Option Json × Option Json × Option Json)
    (existing : Nat → Bool) (endDay : Nat) :
    List Nat → List Nat → HealthSyncTrace
  | [], _ => { fetched := [], upserted := [], synced := 0 }
  | d :: rest, added =>
    if d ≠ endDay ∧ (existing d || added.contains d) then
      syncDailyHealthDays fetch existing endDay rest added
    else
      let t := fetch d
      let mapped := mapDailyHealthReadings
        { sleep := t.1, hrv := t.2.1, restingHeartRate := t.2.2, date := d }
      if hasMetrics mapped then
        let tr := syncDailyHealthDays fetch existing endDay rest (added ++ [d])
        { fetched := d :: tr.fetched, upserted := d :: tr.upserted, synced := tr.synced + 1 }
      else
        let tr := syncDailyHealthDays fetch existing endDay rest added
        { fetched := d :: tr.fetched, upserted := tr.upserted, synced := tr.synced }

/-- `syncDailyHealthData` over `[startDay, endDay]` inclusive: `none` is the
`startDate must be before or equal to endDate` failure; otherwise the loop
runs over `totalDays + 1` consecutive days. -/
def syncDailyHealthData (fetch : Nat → Option Json × Option Json × Option Json)
    (existing : Nat → Bool) (startDay endDay : Nat) : Option HealthSyncTrace :=
  if startDay > endDay then none
  else
    some (syncDailyHealthDays fetch existing endDay
      ((List.range (endDay - startDay + 1)).map (startDay + ·)) [])

theorem syncDailyHealthDays_fetched_iff
    (fetch : Nat → Option Json × Option Json × Option Json)
    (existing : Nat → Bool) (endDay : Nat) (days added : List Nat)
    (hnodup : days.Nodup) (hdisj : ∀ d ∈ days, added.contains d = false) :
    ∀ d, d ∈ (syncDailyHealthDays fetch existing endDay days added).fetched ↔
      (d ∈ days ∧ (d = endDay ∨ existing d = false)) := by
  induction days generalizing added with
  | nil => intro d; simp [syncDailyHealthDays]
  | cons x rest ih =>
    intro d
    have hx : added.contains x = false := hdisj x (by simp)
    have hnd : x ∉ rest := (List.nodup_cons.mp hnodup).1
    have hrest : rest.Nodup := (List.nodup_cons.mp hnodup).2
    rw [syncDailyHealthDays]
    split
    · next hskip =>
      obtain ⟨hxe, hor⟩ := hskip
      have hex : existing x = true := by
        cases hdb : existing x
        · exfalso
          rw [hdb] at hor
          simp at hor hx
          exact hx hor
        · rfl
      rw [ih added hrest (fun d hd => hdisj d (by simp [hd]))]
      constructor
      · rintro ⟨hd, hP⟩; exact ⟨by simp [hd], hP⟩
      · rintro ⟨hd, hP⟩
        rcases List.mem_cons.mp hd with rfl | hd'
        · rcases hP with rfl | hP'
          · exact absurd rfl hxe
          · rw [hex] at hP'; cases hP'
        · exact ⟨hd', hP⟩
    · next hfetch =>
      have hPx : x = endDay ∨ existing x = false := by
        by_cases hxe : x = endDay
        · exact Or.inl hxe
        · right
          cases hdb : existing x
          · rfl
          · exact absurd ⟨hxe, by simp [hdb]⟩ hfetch
      have hdisj' : ∀ d ∈ rest, (added ++ [x]).contains d = false := by
        intro d hd
        have h1 := hdisj d (by simp [hd])
        have h2 : d ≠ x := fun h => hnd (h ▸ hd)
        have h3 : d ∉ added := by simpa using h1
        simp [h3, h2]
      dsimp only
      split
      · simp only [List.mem_cons]
        rw [ih (added ++ [x]) hrest hdisj']
        constructor
        · rintro (rfl | ⟨hd, hP⟩)
          · exact ⟨Or.inl rfl, hPx⟩
          · exact ⟨Or.inr hd, hP⟩
        · rintro ⟨rfl | hd, hP⟩
          · exact Or.inl rfl
          · exact Or.inr ⟨hd, hP⟩
      · simp only [List.mem_cons]
        rw [ih added hrest (fun d hd => hdisj d (by simp [hd]))]
        constructor
        · rintro (rfl | ⟨hd, hP⟩)
          · exact ⟨Or.inl rfl, hPx⟩
          · exact ⟨Or.inr hd, hP⟩
        · rintro ⟨rfl | hd, hP⟩
          · exact Or.inl rfl
          · exact Or.inr ⟨hd, hP⟩

theorem syncDailyHealthDays_upserted_fetched
    (fetch : Nat → Option Json × Option Json × Option Json)
    (existing : Nat → Bool) (endDay : Nat) (days added : List Nat) :
    ∀ d, d ∈ (syncDailyHealthDays fetch existing endDay days added).upserted →
      d ∈ (syncDailyHealthDays fetch existing endDay days added).fetched := by
  induction days generalizing added with
  | nil => intro d; simp [syncDailyHealthDays]
  | cons x rest ih =>
    intro d
    rw [syncDailyHealthDays]
    split
    · exact ih added d
    · dsimp only
      split
      · intro hd
        rcases List.mem_cons.mp hd with rfl | hd'
        · simp
        · simpa using Or.inr (ih (added ++ [x]) d hd')
      · intro hd
        simpa using Or.inr (ih added d hd)

/-- C3: daily-health sync over an inclusive range `[startDay, endDay]` with
`startDay ≤ endDay` succeeds; a day of the range is fetched exactly when it
is the final day or no reading already exists for it (so every earlier
existing day is skipped, and the final day is fetched unconditionally);
days outside the range are never fetched; and only fetched days are ever
upserted. -/
theorem syncDailyHealthData_fetch_policy
    (fetch : Nat → Option Json × Option Json × Option Json)
    (existing : Nat → Bool) (startDay endDay : Nat) (hle : startDay ≤ endDay) :
    ∃ tr, syncDailyHealthData fetch existing startDay endDay = some tr ∧
      (∀ d, d ∈ tr.fetched ↔
        (startDay ≤ d ∧ d ≤ endDay ∧ (d = endDay ∨ existing d = false))) ∧
      (∀ d, d ∈ tr.upserted → d ∈ tr.fetched) := by
  have hnot : ¬ startDay > endDay := not_lt.mpr hle
  refine ⟨_, by rw [syncDailyHealthData, if_neg hnot], ?_, ?_⟩
  · intro d
    have hnodup : ((List.range (endDay - startDay + 1)).map (startDay + ·)).Nodup :=
      List.Nodup.map (fun a b h => by omega) (List.nodup_range _)
    rw [syncDailyHealthDays_fetched_iff fetch existing endDay _ [] hnodup
      (fun d _ => rfl) d]
    constructor
    · rintro ⟨hd, hP⟩
      obtain ⟨o, ho, rfl⟩ := List.mem_map.mp hd
      have := List.mem_range.mp ho
      exact ⟨by omega, by omega, hP⟩
    · rintro ⟨h1, h2, hP⟩
      refine ⟨List.mem_map.mpr ⟨d - startDay, List.mem_range.mpr (by omega), by omega⟩, hP⟩
  · exact syncDailyHealthDays_upserted_fetched fetch existing endDay _ []

/-- Witness for `syncDailyHealthData_fetch_policy` at the spec's example:
range day 1 .. day 3 (2026-02-01 .. 2026-02-03) with an existing reading
only for day 1 — so day 1 is skipped while days 2 and 3 are fetched. -/
theorem syncDailyHealthData_fetch_policy_witness :
    ∃ tr, syncDailyHealthData
        (fun _ => (some (Json.obj [("restingHeartRate", Json.num 50)]), none, none))
        (fun d => d == 1) 1 3 = some tr ∧
      (∀ d, d ∈ tr.fetched ↔
        (1 ≤ d ∧ d ≤ 3 ∧ (d = 3 ∨ (d == 1) = false))) ∧
      (∀ d, d ∈ tr.upserted → d ∈ tr.fetched) :=
  syncDailyHealthData_fetch_policy
    (fun _ => (some (Json.obj [("restingHeartRate", Json.num 50)]), none, none))
    (fun d => d == 1) 1 3 (by norm_num)

/-! ## SyncOrchestrator: fitness sync (`src/server/sync.ts`) -/

structure SyncFitnessResult where
  success : Bool
  synced : Bool
  message : String
  deriving Repr, DecidableEq

/-- The `userRunningFitness` row upserted by `syncUserRunningFitness`
(time-stamp fields omitted). -/
structure FitnessRow where
  predicted5kSeconds : Option ℤ
  predicted10kSeconds : Option ℤ
  predictedHalfSeconds : Option ℤ
  predictedMarathonSeconds : Option ℤ
  paces : TrainingPaces
  weeklyVolumeAvgKm : Option ℚ
  longestRunKm : Option ℚ
  runningDistanceAvgKm : Option ℚ
  deriving Repr, DecidableEq

/-- `Array.isArray(predictionsRaw) ? asObject(predictionsRaw[0]) :
asObject(predictionsRaw)`. -/
def extractPredictionsObject : Json → Option (List (String × Json))
  | Json.arr l => l.head?.bind asObject
  | j => asObject j

/-- `syncUserRunningFitness` from `src/server/sync.ts`, given the outcome of
the two external fetches (`getRacePredictions`, and `getActivities` for the
4-week volume window); returns the result object and the row upserted, if
any. The whole body runs in a `try` whose `catch` returns a failure result,
so a `getRacePredictions` rejection or a `calculateTrainingPaces` throw
becomes a failure; the volume sub-fetch has its own inner `catch` that
falls back to `{}`. -/
def syncUserRunningFitness (predictionsFetch : Except String Json)
    (activitiesFetch : Except String (List Json)) :
    SyncFitnessResult × Option FitnessRow :=
  match predictionsFetch with
  | Except.error e => ({ success := false, synced := false, message := e }, none)
  | Except.ok predictionsRaw =>
    match extractPredictionsObject predictionsRaw with
    | none =>
      ({ success := false, synced := false,
         message := "No race prediction data returned by Garmin." }, none)
    | some predictions =>
      let mappedPredictions := mapRacePredictions (Json.obj predictions)
      -- `!predicted10kSeconds`: undefined and 0 are both falsy
      match mappedPredictions.predicted10kSeconds with
      | none =>
        ({ success := false, synced := false,
           message := "Race predictions are missing 10K time." }, none)
      | some p10 =>
        if p10 = 0 then
          ({ success := false, synced := false,
             message := "Race predictions are missing 10K time." }, none)
        else
          match calculateTrainingPaces (p10 : ℚ) with
          | Except.error e => ({ success := false, synced := false, message := e }, none)
          | Except.ok paces =>
            let volumeMetrics : RunningVolumeMetrics :=
              match activitiesFetch with
              | Except.ok activities => mapRunningVolume activities
              | Except.error _ => {}
            ({ success := true, synced := true,
               message := "Running fitness synced successfully." },
             some
               { predicted5kSeconds := mappedPredictions.predicted5kSeconds
                 predicted10kSeconds := mappedPredictions.predicted10kSeconds
                 predictedHalfSeconds := mappedPredictions.predictedHalfSeconds
                 predictedMarathonSeconds := mappedPredictions.predictedMarathonSeconds
                 paces := paces
                 weeklyVolumeAvgKm := volumeMetrics.weeklyVolumeAvgKm
                 longestRunKm := volumeMetrics.longestRunKm
                 runningDistanceAvgKm := volumeMetrics.runningDistanceAvgKm })

/-- The fetched predictions carry a valid (positive) 10K time. -/
def hasValid10k (predictionsRaw : Json) : Prop :=
  ∃ fields v, extractPredictionsObject predictionsRaw = some fields ∧
    (mapRacePredictions (Json.obj fields)).predicted10kSeconds = some v ∧ 0 < v

/-- C6: fitness sync fails — persisting nothing — whenever the fetched race
predictions lack a valid 10K time; and when a valid 10K time is present, a
failure of the separate 4-week volume sub-fetch never fails the sync: the
volume fields are simply absent and the sync still succeeds and persists
the row. -/
theorem syncUserRunningFitness_10k_gate_volume_best_effort
    (praw1 : Json) (af1 : Except String (List Json))
    (praw2 : Json) (err : String)
    (h1 : ¬ hasValid10k praw1) (h2 : hasValid10k praw2) :
    ((syncUserRunningFitness (Except.ok praw1) af1).1.success = false ∧
      (syncUserRunningFitness (Except.ok praw1) af1).2 = none) ∧
    ((syncUserRunningFitness (Except.ok praw2) (Except.error err)).1.success = true ∧
      ∃ row, (syncUserRunningFitness (Except.ok praw2) (Except.error err)).2 = some row ∧
        row.weeklyVolumeAvgKm = none ∧ row.longestRunKm = none ∧
        row.runningDistanceAvgKm = none) := by
  constructor
  · rcases hep : extractPredictionsObject praw1 with _ | fields
    · simp only [syncUserRunningFitness, hep]
      exact ⟨trivial, trivial⟩
    · rcases h10 : (mapRacePredictions (Json.obj fields)).predicted10kSeconds with _ | p10
      · simp only [syncUserRunningFitness, hep, h10]
        exact ⟨trivial, trivial⟩
      · have hp10 : ¬ 0 < p10 := fun hpos => h1 ⟨fields, p10, hep, h10, hpos⟩
        simp only [syncUserRunningFitness, hep, h10]
        by_cases hz : p10 = 0
        · simp [hz]
        · rw [if_neg hz]
          have hneg : (p10 : ℚ) ≤ 0 := by
            have : p10 ≤ 0 := by omega
            exact_mod_cast this
          rw [calculateTrainingPaces, if_pos hneg]
          exact ⟨rfl, rfl⟩
  · obtain ⟨fields, v, hep, h10, hpos⟩ := h2
    have hz : ¬ v = 0 := by omega
    have hposq : ¬ (v : ℚ) ≤ 0 := by
      simp only [not_le]
      exact_mod_cast hpos
    simp only [syncUserRunningFitness, hep, h10, if_neg hz]
    rw [calculateTrainingPaces, if_neg hposq]
    exact ⟨rfl, _, rfl, rfl, rfl, rfl⟩

/-- Witness for `syncUserRunningFitness_10k_gate_volume_best_effort`:
predictions with `time10K = 0` (invalid) versus `time10K = 2400` (valid)
with a failing volume sub-fetch. -/
theorem syncUserRunningFitness_10k_gate_volume_best_effort_witness :
    ((syncUserRunningFitness (Except.ok (Json.obj [("time10K", Json.num 0)]))
        (Except.ok [])).1.success = false ∧
      (syncUserRunningFitness (Except.ok (Json.obj [("time10K", Json.num 0)]))
        (Except.ok [])).2 = none) ∧
    ((syncUserRunningFitness (Except.ok (Json.obj [("time10K", Json.num 2400)]))
        (Except.error "getActivities failed")).1.success = true ∧
      ∃ row, (syncUserRunningFitness (Except.ok (Json.obj [("time10K", Json.num 2400)]))
          (Except.error "getActivities failed")).2 = some row ∧
        row.weeklyVolumeAvgKm = none ∧ row.longestRunKm = none ∧
        row.runningDistanceAvgKm = none) :=
  syncUserRunningFitness_10k_gate_volume_best_effort
    (Json.obj [("time10K", Json.num 0)]) (Except.ok [])
    (Json.obj [("time10K", Json.num 2400)]) "getActivities failed"
    (by
      rintro ⟨fields, v, hef, h10, hv⟩
      have hf : [("time10K", Json.num 0)] = fields := by
        simpa [extractPredictionsObject, asObject] using hef
      subst hf
      have : (mapRacePredictions
          (Json.obj [("time10K", Json.num 0)])).predicted10kSeconds = some 0 := by decide
      rw [this] at h10
      cases h10
      omega)
    ⟨[("time10K", Json.num 2400)], 2400, rfl, by decide, by norm_num⟩

/-! ## ExternalFitnessAdapter (`src/server/garmin.ts`) -/

/-- A thrown JS `Error` in the adapter layer; `GarminCapabilityError`
carries `name`, `status` and `operation` in addition to the message. -/
structure JsError where
  name : String
  message : String
  status : Option Nat := none
  operation : Option String := none
  deriving Repr, DecidableEq

/-- The `GarminCapabilityError` constructor: when no message is supplied it
defaults to the explicit "operation not supported" text. -/
def garminCapabilityError (operation : String) (message : Option String) (status : Nat) :
    JsError :=
  { name := "GarminCapabilityError"
    message := message.getD
      ("Garmin operation '" ++ operation ++
        "' is not supported by the current adapter and HTTP fallback is not configured.")
    status := some status
    operation := some operation }

/-- The external client surface: a duck-typed bag of methods (a name resolves
to a callable or not) plus the `url` property used for the HTTP fallback.
A call either returns a value or throws. -/
structure RawClient where
  methods : String → Option (List Json → Except JsError Json)
  url : Option Json

/-- Inner loop of `invokeMethod`: try each candidate argument tuple on one
callable, returning the first success or the last error seen so far. -/
def tryArgs (method : List Json → Except JsError Json) :
    List (List Json) → Option JsError → Json ⊕ Option JsError
  | [], lastError => Sum.inr lastError
  | args :: rest, _lastError =>
    match method args with
    | Except.ok v => Sum.inl v
    | Except.error e => tryArgs method rest (some e)

/-- Outer loop of `invokeMethod`: iterate the alias list, skipping names
that do not resolve to a callable. -/
def invokeGo (client : String → Option (List Json → Except JsError Json))
    (argsVariants : List (List Json)) :
    List String → Option JsError → Json ⊕ Option JsError
  | [], lastError => Sum.inr lastError
  | n :: rest, lastError =>
    match client n with
    | none => invokeGo client argsVariants rest lastError
    | some m =>
      match tryArgs m argsVariants lastError with
      | Sum.inl v => Sum.inl v
      | Sum.inr lastError' => invokeGo client argsVariants rest lastError'

/-- `invokeMethod(client, methodNames, argsVariants)` from
`src/server/garmin.ts`: first success wins; otherwise rethrow the last
error, or throw the "Missing Garmin capability" error when no alias/shape
was even callable. -/
def invokeMethod (client : String → Option (List Json → Except JsError Json))
    (methodNames : List String) (argsVariants : List (List Json)) : Except JsError Json :=
  match invokeGo client argsVariants methodNames none with
  | Sum.inl v => Except.ok v
  | Sum.inr (some e) => Except.error e
  | Sum.inr none =>
    Except.error
      { name := "Error"
        message := "Missing Garmin capability: " ++ String.intercalate "/" methodNames }

def isMissingCapabilityError (e : JsError) : Bool :=
  jsStartsWith e.message.data "Missing Garmin capability:".data

def getGarminApiBaseUrl (client : RawClient) : String :=
  match (client.url.bind asObject).bind
      (fun o => match Json.get o "GC_API" with
        | some (Json.str s) => some s
        | _ => none) with
  | some s => s
  | none => "https://connectapi.garmin.com"

/-- `resolveClientDisplayName(client)`: fetch the user profile through the
alias list and pick the first non-blank name candidate; `none` on any
failure. -/
def resolveClientDisplayName (client : RawClient) : Option String :=
  match invokeMethod client.methods ["getUserProfile", "get_user_profile"] [[]] with
  | Except.error _ => none
  | Except.ok profileRaw =>
    match asObject profileRaw with
    | none => none
    | some profile =>
      let pick := fun (v : Option Json) =>
        match v with
        | some (Json.str s) =>
          if (jsTrimL s.data).isEmpty then none else some (String.mk (jsTrimL s.data))
        | _ => none
      ((pick (Json.get profile "displayName")).or
        ((pick (Json.get profile "username")).or (pick (Json.get profile "userName"))))

/-- `fallbackHttpRequest(client, operation, options)` from
`src/server/garmin.ts`: HTTP fallbacks exist only for race predictions, HRV
and resting heart rate; any other operation (and a client without `get`)
raises the capability error. -/
def fallbackHttpRequest (client : RawClient) (operation : String) (dateOpt : Option String) :
    Except JsError Json :=
  match client.methods "get" with
  | none => Except.error (garminCapabilityError operation none 501)
  | some getMethod =>
    let baseUrl := getGarminApiBaseUrl client
    if operation = "race-predictions" then
      match resolveClientDisplayName client with
      | none =>
        Except.error (garminCapabilityError operation
          (some "Garmin race predictions require a profile display name, but none was available.")
          500)
      | some displayName =>
        getMethod [Json.str (baseUrl ++ "/metrics-service/metrics/racepredictions/latest/" ++ displayName)]
    else if operation = "hrv" then
      match dateOpt with
      | none => Except.error (garminCapabilityError operation (some "HRV fallback requires a date.") 500)
      | some date => getMethod [Json.str (baseUrl ++ "/hrv-service/hrv/" ++ date)]
    else if operation = "resting-heart-rate" then
      match dateOpt with
      | none =>
        Except.error (garminCapabilityError operation
          (some "Resting heart rate fallback requires a date.") 500)
      | some date =>
        match resolveClientDisplayName client with
        | none =>
          Except.error (garminCapabilityError operation
            (some "Garmin resting heart rate fallback requires a profile display name, but none was available.")
            500)
        | some displayName =>
          getMethod
            [Json.str (baseUrl ++ "/userstats-service/wellness/daily/" ++ displayName),
              Json.obj [("params", Json.obj
                [("fromDate", Json.str date), ("untilDate", Json.str date),
                  ("metricId", Json.num 60)])]]
    else Except.error (garminCapabilityError operation none 501)

/-- The adapter's `uploadWorkout` operation from `createGarminAdapter`:
invoke by alias list; on a missing-capability error, fall back to HTTP
(which has no branch for `upload-workout`). -/
def adapterUploadWorkout (client : RawClient) (workoutJson : Json) : Except JsError Json :=
  match invokeMethod client.methods ["uploadWorkout", "upload_workout", "addWorkout"] [[workoutJson]] with
  | Except.ok v => Except.ok v
  | Except.error e =>
    if isMissingCapabilityError e then fallbackHttpRequest client "upload-workout" none
    else Except.error e

/-- C7: when none of the known aliases (`uploadWorkout`, `upload_workout`,
`addWorkout`) resolves to a callable on the external client, the adapter's
upload operation fails with a `GarminCapabilityError` (status 501, carrying
the operation) whose message explicitly says the operation is not
supported — never an ordinary error. -/
theorem adapterUploadWorkout_capability_error (client : RawClient) (w : Json)
    (h1 : client.methods "uploadWorkout" = none)
    (h2 : client.methods "upload_workout" = none)
    (h3 : client.methods "addWorkout" = none) :
    adapterUploadWorkout client w =
      Except.error
        { name := "GarminCapabilityError"
          message := "Garmin operation 'upload-workout' is not supported by the current adapter and HTTP fallback is not configured."
          status := some 501
          operation := some "upload-workout" } := by
  have hinv : invokeMethod client.methods ["uploadWorkout", "upload_workout", "addWorkout"]
      [[w]] = Except.error
        { name := "Error"
          message := "Missing Garmin capability: uploadWorkout/upload_workout/addWorkout" } := by
    rw [invokeMethod]
    rw [invokeGo, h1, invokeGo, h2, invokeGo, h3, invokeGo]
    rfl
  rw [adapterUploadWorkout, hinv]
  dsimp only
  rw [if_pos (by decide)]
  rw [fallbackHttpRequest]
  cases hget : client.methods "get" with
  | none => rfl
  | some getMethod =>
    dsimp only
    rw [if_neg (by decide), if_neg (by decide), if_neg (by decide)]
    rfl

/-- Witness for `adapterUploadWorkout_capability_error` at a client with no
methods at all. -/
theorem adapterUploadWorkout_capability_error_witness :
    adapterUploadWorkout { methods := fun _ => none, url := none } Json.null =
      Except.error
        { name := "GarminCapabilityError"
          message := "Garmin operation 'upload-workout' is not supported by the current adapter and HTTP fallback is not configured."
          status := some 501
          operation := some "upload-workout" } :=
  adapterUploadWorkout_capability_error
    { methods := fun _ => none, url := none } Json.null rfl rfl rfl

/-! ## Workout accept/reject
(`src/app/api/workout/[id]/accept/route.ts`, `.../reject/route.ts`)

The handlers' authentication/ownership checks are orthogonal to the status
machine; the embedding starts from the fetched workout row. -/

structure WorkoutRow where
  status : String
  garminWorkoutId : Option ℤ
  deriving Repr, DecidableEq

/-- Outcome of `uploadWorkoutToGarmin`; `workoutId` is the optional numeric
id found in the adapter response. -/
structure UploadOutcome where
  success : Bool
  workoutId : Option ℚ
  deriving Repr, DecidableEq

/-- The accept handler applied to the fetched workout row: only `generated`
workouts may be accepted; the row is updated to `uploaded` only when the
upload succeeded; otherwise nothing is written. Returns the (possibly
updated) row and whether the handler responded with success. -/
def acceptWorkout (w : WorkoutRow) (upload : UploadOutcome) : WorkoutRow × Bool :=
  if w.status ≠ "generated" then (w, false)
  else if !upload.success then (w, false)
  else ({ status := "uploaded", garminWorkoutId := upload.workoutId.map jsTrunc }, true)

/-- The reject handler applied to the fetched workout row: the update to
`rejected` is unconditional (the handler never inspects `status`). -/
def rejectWorkout (w : WorkoutRow) : WorkoutRow × Bool :=
  ({ w with status := "rejected" }, true)

/-- C2 (counterexample): `uploaded` is not a terminal status — the reject
handler, which never checks the current status, moves an `uploaded` workout
to `rejected`. -/
theorem workout_uploaded_not_terminal :
    (rejectWorkout { status := "uploaded", garminWorkoutId := none }).1.status = "rejected" ∧
      ("rejected" : String) ≠ "uploaded" :=
  ⟨rfl, by decide⟩

/-- C2 (amended): accept transitions `generated` → `uploaded` exactly when
the upload succeeded and otherwise leaves the row unchanged (in particular a
failed upload leaves the status at `generated`, and `rejected`/`uploaded`
workouts cannot be accepted); reject sets the status to `rejected`
unconditionally, whatever the current status — so `rejected` is terminal,
but `uploaded` can still be moved to `rejected` by reject. -/
theorem workout_status_transitions (w : WorkoutRow) (u : UploadOutcome) :
    ((acceptWorkout w u).1.status =
      if w.status = "generated" ∧ u.success = true then "uploaded" else w.status) ∧
    ((acceptWorkout w u).2 = true ↔ (w.status = "generated" ∧ u.success = true)) ∧
    ((acceptWorkout w u).1 = w ∨ (w.status = "generated" ∧ u.success = true)) ∧
    (rejectWorkout w).1.status = "rejected" := by
  refine ⟨?_, ?_, ?_, rfl⟩ <;>
    · rw [acceptWorkout]
      split
      · next h => simp_all
      · next h =>
        split
        · next h2 => simp_all
        · next h2 => simp_all

/-! ## Sync endpoint adapter sharing
(`src/server/sync.ts`, `src/app/api/garmin/sync/route.ts`)

Resolving a Garmin client (`getGarminClientForUser`) performs one external
login; the model tracks, for each code path, the client used and how many
logins it performs. `resolveGarminClient(userId, context)` returns the
context's client with no login when a context is supplied, and resolves a
fresh client (one login) otherwise; `createSyncContext(userId)` resolves a
fresh client once. -/

/-- `resolveGarminClient`: given `some context` return its client and
perform 0 logins; given `none` resolve a fresh client, 1 login. -/
def resolveGarminClient (fresh : Nat) : Option Nat → Nat × Nat
  | some contextClient => (contextClient, 0)
  | none => (fresh, 1)

/-- `createSyncContext` performs exactly one client resolution (login). -/
def createSyncContextLogins : Nat := 1

/-- Total logins performed by the `POST` handler of
`src/app/api/garmin/sync/route.ts`: it invokes `syncUserActivities`,
`syncDailyHealthData` and `syncUserRunningFitness` with NO context
(lines 119–123), so each operation resolves its own client. -/
def syncRoutePostLogins (fresh1 fresh2 fresh3 : Nat) : Nat :=
  (resolveGarminClient fresh1 none).2 + (resolveGarminClient fresh2 none).2 +
    (resolveGarminClient fresh3 none).2

/-- Total logins performed by the sync-route variant that calls
`createSyncContext` first and passes the shared context to all three
operations (the behaviour the spec and the repository's architecture notes
describe). -/
def syncRouteSharedContextLogins (contextClient : Nat) : Nat :=
  createSyncContextLogins +
    ((resolveGarminClient contextClient (some contextClient)).2 +
      (resolveGarminClient contextClient (some contextClient)).2 +
      (resolveGarminClient contextClient (some contextClient)).2)

/-- C1: the deployed sync endpoint (`src/app/api/garmin/sync/route.ts`)
resolves three adapters — one login per sync operation — not one; the
sharing machinery itself works as specified: an operation given a session
reuses its client with no further login, and the context-passing variant of
the route performs exactly one login. -/
theorem syncRoute_adapter_resolutions (fresh1 fresh2 fresh3 contextClient : Nat) :
    syncRoutePostLogins fresh1 fresh2 fresh3 = 3 ∧
    syncRoutePostLogins fresh1 fresh2 fresh3 ≠ 1 ∧
    resolveGarminClient fresh1 (some contextClient) = (contextClient, 0) ∧
    resolveGarminClient fresh1 none = (fresh1, 1) ∧
    syncRouteSharedContextLogins contextClient = 1 :=
  ⟨rfl, by simp [syncRoutePostLogins, resolveGarminClient], rfl, rfl, rfl⟩

end EvoCoach
